import Mathlib

/-!
Shallow embedding of the dense-matrix kernel from
`examples/cpp-java-python-engine/engine` (files `src/matrix.cpp`,
`src/engine.cpp`, `include/math_engine.h`).

Modelling conventions:
* `size_t` values are natural numbers; every arithmetic step the C++ code
  performs on `size_t` (products and index computations) is taken modulo
  `2 ^ 64`, written explicitly as `% SIZE_T_MOD`.
* `double` entries are drawn from an arbitrary type `α` equipped with `0`,
  `+` and `*`; no algebraic law (associativity, commutativity) is assumed,
  so the exact summation order of the C++ loops is observable.
* Fallible operations return `Except Err _`; a thrown C++ exception is an
  `Except.error`.
* An out-of-range `std::vector` subscript (`data_[i]` with `i ≥ size()`)
  is undefined behaviour in C++; it is modelled by an inner `Option`
  (`none` = the run has no defined result).
-/

namespace MathEngine

/-- Modulus of `size_t` arithmetic on the reference 64-bit platform. -/
def SIZE_T_MOD : Nat := 18446744073709551616

/-- The thrown-exception alphabet of the value-type tier, named as in the
spec: `InvalidDimension` and `SizeMismatch` and `DimensionMismatch` are
`std::invalid_argument` in the C++ source (distinguished by message and
throw site), `IndexOutOfRange` is `std::out_of_range`. -/
inductive Err where
  | invalidDimension
  | sizeMismatch
  | indexOutOfRange
  | dimensionMismatch
  deriving DecidableEq, Repr

/-- The `math_engine::Matrix` record: row count, column count and the
backing `std::vector<double>` in row-major order. -/
structure Matrix (α : Type) where
  rows_ : Nat
  cols_ : Nat
  data_ : List α
  deriving DecidableEq, Repr

instance {ε α : Type} [DecidableEq ε] [DecidableEq α] : DecidableEq (Except ε α) := by
  intro a b
  cases a <;> cases b
  case error.error e f =>
    exact if h : e = f then .isTrue (by rw [h]) else .isFalse (by simp [h])
  case error.ok e x => exact .isFalse (by simp)
  case ok.error x e => exact .isFalse (by simp)
  case ok.ok x y =>
    exact if h : x = y then .isTrue (by rw [h]) else .isFalse (by simp [h])

/-- A `size_t`-representable number. -/
abbrev SizeT (n : Nat) : Prop := n < SIZE_T_MOD

namespace Matrix

variable {α : Type}

/-- Matrix::Matrix(size_t rows, size_t cols): the member initialiser
builds a zero-filled vector of `rows * cols` elements (a `size_t`
product, hence taken mod `2 ^ 64`), then the body throws
`invalid_argument` when `rows == 0 || cols == 0`. -/
def construct2 [Zero α] (rows cols : Nat) : Except Err (Matrix α) :=
  if rows = 0 ∨ cols = 0 then .error .invalidDimension
  else .ok ⟨rows, cols, List.replicate ((rows * cols) % SIZE_T_MOD) 0⟩

/-- Matrix::Matrix(size_t rows, size_t cols, const std::vector<double>&):
copies `data`, throws `invalid_argument` on a zero dimension, then throws
`invalid_argument` (SizeMismatch) when `data.size() != rows * cols`, both
sides being `size_t` values. -/
def construct3 (rows cols : Nat) (data : List α) : Except Err (Matrix α) :=
  if rows = 0 ∨ cols = 0 then .error .invalidDimension
  else if data.length ≠ (rows * cols) % SIZE_T_MOD then .error .sizeMismatch
  else .ok ⟨rows, cols, data⟩

/-- Matrix::at (const overload, a read): bounds check against
`rows_`/`cols_`, then the unchecked vector subscript
`data_[row * cols_ + col]` with the index computed in `size_t`.  The
inner `Option` is `none` exactly when that subscript is undefined
behaviour (index past the end of the vector). -/
def at? (m : Matrix α) (row col : Nat) : Except Err (Option α) :=
  if row ≥ m.rows_ ∨ col ≥ m.cols_ then .error .indexOutOfRange
  else .ok (m.data_[(row * m.cols_ + col) % SIZE_T_MOD]?)

/-- Unchecked write `l[i] = x` through `std::vector::operator[]`:
`none` when the write is undefined behaviour. -/
def setIdx? (l : List α) (i : Nat) (x : α) : Option (List α) :=
  if i < l.length then some (l.set i x) else none

/-- Matrix::at (non-const overload) used as the target of an assignment
`m.at(row, col) = x`: same bounds check as the read, then an unchecked
store through the returned reference. -/
def setAt? (m : Matrix α) (row col : Nat) (x : α) : Except Err (Option (Matrix α)) :=
  if row ≥ m.rows_ ∨ col ≥ m.cols_ then .error .indexOutOfRange
  else .ok ((setIdx? m.data_ ((row * m.cols_ + col) % SIZE_T_MOD) x).map
    (fun d => { m with data_ := d }))

/-- The loop body of Matrix::operator+:
`for (i = 0; i < data_.size(); ++i) result.data_[i] = data_[i] + other.data_[i];`
iterating over this matrix's elements `xs`, reading `b` (the other
operand's vector) and writing `r.data_` by unchecked subscript. -/
def addLoop [Add α] (b : List α) : List α → Nat → Matrix α → Option (Matrix α)
  | [], _, r => some r
  | x :: xs, i, r =>
    match b[i]? with
    | none => none
    | some y =>
      match setIdx? r.data_ i (x + y) with
      | none => none
      | some d => addLoop b xs (i + 1) { r with data_ := d }

/-- Matrix::operator+: dimension check, a zero-filled result built by the
two-argument constructor, then the elementwise loop. -/
def add [Zero α] [Add α] (a b : Matrix α) : Except Err (Option (Matrix α)) :=
  if a.rows_ ≠ b.rows_ ∨ a.cols_ ≠ b.cols_ then .error .dimensionMismatch
  else
    match construct2 a.rows_ a.cols_ with
    | .error e => .error e
    | .ok r => .ok (addLoop b.data_ a.data_ 0 r)

/-- The innermost loop of Matrix::operator*:
`for (k = 0; k < cols_; ++k) sum += at(i, k) * other.at(k, j);`
with `ks` the remaining values of `k` and `acc` the running `sum`. -/
def mulSum [Add α] [Mul α] (a b : Matrix α) (i j : Nat) :
    List Nat → α → Except Err (Option α)
  | [], acc => .ok (some acc)
  | k :: ks, acc =>
    match a.at? i k with
    | .error e => .error e
    | .ok none => .ok none
    | .ok (some x) =>
      match b.at? k j with
      | .error e => .error e
      | .ok none => .ok none
      | .ok (some y) => mulSum a b i j ks (acc + x * y)

/-- The middle loop of Matrix::operator* (over `j`), storing each
finished sum through `result.at(i, j)`. -/
def mulInner [Zero α] [Add α] [Mul α] (a b : Matrix α) (i : Nat) :
    List Nat → Matrix α → Except Err (Option (Matrix α))
  | [], r => .ok (some r)
  | j :: js, r =>
    match mulSum a b i j (List.range a.cols_) 0 with
    | .error e => .error e
    | .ok none => .ok none
    | .ok (some s) =>
      match r.setAt? i j s with
      | .error e => .error e
      | .ok none => .ok none
      | .ok (some r') => mulInner a b i js r'

/-- The outer loop of Matrix::operator* (over `i`). -/
def mulOuter [Zero α] [Add α] [Mul α] (a b : Matrix α) :
    List Nat → Matrix α → Except Err (Option (Matrix α))
  | [], r => .ok (some r)
  | i :: is, r =>
    match mulInner a b i (List.range b.cols_) r with
    | .error e => .error e
    | .ok none => .ok none
    | .ok (some r') => mulOuter a b is r'

/-- Matrix::operator*: inner-dimension check, a zero-filled
`rows_ × other.cols_` result, then the triple loop with `k` innermost. -/
def mul [Zero α] [Add α] [Mul α] (a b : Matrix α) : Except Err (Option (Matrix α)) :=
  if a.cols_ ≠ b.rows_ then .error .dimensionMismatch
  else
    match construct2 a.rows_ b.cols_ with
    | .error e => .error e
    | .ok r => mulOuter a b (List.range a.rows_) r

/-- The inner loop of Matrix::transpose (over `j`):
`result.at(j, i) = at(i, j);`. -/
def transInner (m : Matrix α) (i : Nat) :
    List Nat → Matrix α → Except Err (Option (Matrix α))
  | [], r => .ok (some r)
  | j :: js, r =>
    match m.at? i j with
    | .error e => .error e
    | .ok none => .ok none
    | .ok (some x) =>
      match r.setAt? j i x with
      | .error e => .error e
      | .ok none => .ok none
      | .ok (some r') => transInner m i js r'

/-- The outer loop of Matrix::transpose (over `i`). -/
def transOuter (m : Matrix α) :
    List Nat → Matrix α → Except Err (Option (Matrix α))
  | [], r => .ok (some r)
  | i :: is, r =>
    match transInner m i (List.range m.cols_) r with
    | .error e => .error e
    | .ok none => .ok none
    | .ok (some r') => transOuter m is r'

/-- Matrix::transpose: a zero-filled `cols_ × rows_` result, then the
double loop writing `result.at(j, i) = at(i, j)`. -/
def transpose [Zero α] (m : Matrix α) : Except Err (Option (Matrix α)) :=
  match construct2 m.cols_ m.rows_ with
  | .error e => .error e
  | .ok r => transOuter m (List.range m.rows_) r

/-- The class invariant every live C++ `Matrix` object of this source
satisfies: positive dimensions and a backing vector whose length is the
`size_t` product `rows_ * cols_`, all three `size_t`-representable. -/
abbrev WF (m : Matrix α) : Prop :=
  0 < m.rows_ ∧ 0 < m.cols_ ∧ m.data_.length = (m.rows_ * m.cols_) % SIZE_T_MOD ∧
    SizeT m.rows_ ∧ SizeT m.cols_ ∧ SizeT m.data_.length

/-- The spec's §3 invariant, read with the mathematical product: positive
dimensions and a backing vector of exactly `rows_ * cols_` elements
(hence, the lengths being `size_t`-representable, no wrap-around occurred
in the product). -/
abbrev Valid (m : Matrix α) : Prop :=
  0 < m.rows_ ∧ 0 < m.cols_ ∧ m.data_.length = m.rows_ * m.cols_ ∧
    SizeT m.rows_ ∧ SizeT m.cols_ ∧ SizeT m.data_.length

/-- Observation helper (not in the C++ source): the element conceptually
stored at logical position `(i, j)`, i.e. the row-major buffer entry at
offset `i * cols_ + j`, defaulting to `0` where no element is stored. -/
def entry [Zero α] (m : Matrix α) (i j : Nat) : α :=
  m.data_.getD (i * m.cols_ + j) 0

/-- The spec's formula for one entry of the matrix product: the sum over
`k` of `A[i][k] * B[k][j]`, accumulated left to right starting from zero
with `k` as the innermost loop. -/
def specEntry [Zero α] [Add α] [Mul α] (a b : Matrix α) (i j : Nat) : α :=
  (List.range a.cols_).foldl (fun s k => s + entry a i k * entry b k j) 0

/-- Helper (proof side): the matrix after one in-range store at logical
position `(i, j)`. -/
def upd (m : Matrix α) (i j : Nat) (x : α) : Matrix α :=
  { m with data_ := m.data_.set (i * m.cols_ + j) x }

end Matrix

/-!
The opaque-handle boundary layer of `src/engine.cpp`.  A live handle is a
`Matrix` value; the null-pointer sentinel returned on a caught exception
is `none`.  For the compute functions the outer `Option` records whether
the C++ run is defined at all: `none` = the wrapped operator hit
undefined behaviour (which `catch (...)` does not intercept), `some none`
= a defined run that returned the sentinel, `some (some m)` = a defined
run that returned a new handle.  `matrix_destroy` frees memory and has no
observable effect in a value model, so it is not modelled; allocation
failure (`std::bad_alloc`) is likewise not modelled — allocation always
succeeds here. -/

/-- engine.cpp matrix_create: `new Matrix(rows, cols)` inside try/catch;
a thrown exception (zero dimension, or allocation failure, the latter not
modelled) becomes the null sentinel.  No undefined behaviour is possible,
so the result needs no outer `Option`. -/
def matrix_create {α : Type} [Zero α] (rows cols : Nat) : Option (Matrix α) :=
  match Matrix.construct2 rows cols with
  | .error _ => none
  | .ok m => some m

/-- engine.cpp matrix_add: `*ma + *mb` inside try/catch. -/
def matrix_add {α : Type} [Zero α] [Add α] (a b : Matrix α) :
    Option (Option (Matrix α)) :=
  match Matrix.add a b with
  | .error _ => some none
  | .ok none => none
  | .ok (some m) => some (some m)

/-- engine.cpp matrix_multiply: `*ma * *mb` inside try/catch. -/
def matrix_multiply {α : Type} [Zero α] [Add α] [Mul α] (a b : Matrix α) :
    Option (Option (Matrix α)) :=
  match Matrix.mul a b with
  | .error _ => some none
  | .ok none => none
  | .ok (some m) => some (some m)

/-- engine.cpp matrix_transpose: `m->transpose()` inside try/catch. -/
def matrix_transpose {α : Type} [Zero α] (m : Matrix α) :
    Option (Option (Matrix α)) :=
  match Matrix.transpose m with
  | .error _ => some none
  | .ok none => none
  | .ok (some t) => some (some t)

/-- engine.cpp matrix_rows. -/
def matrix_rows {α : Type} (m : Matrix α) : Nat := m.rows_

/-- engine.cpp matrix_cols. -/
def matrix_cols {α : Type} (m : Matrix α) : Nat := m.cols_

/-- engine.cpp matrix_get_data: copies `rows() * cols()` values (a
`size_t` count) out of the buffer; reading past the end of the buffer is
undefined behaviour (`none`). -/
def matrix_get_data {α : Type} (m : Matrix α) : Option (List α) :=
  if (m.rows_ * m.cols_) % SIZE_T_MOD ≤ m.data_.length
  then some (m.data_.take ((m.rows_ * m.cols_) % SIZE_T_MOD)) else none

/-- engine.cpp matrix_set_data: copies `rows() * cols()` values (a
`size_t` count) from the caller's sequence into the buffer; reading past
the end of the supplied sequence or writing past the end of the buffer
is undefined behaviour (`none`). -/
def matrix_set_data {α : Type} (m : Matrix α) (data : List α) :
    Option (Matrix α) :=
  if (m.rows_ * m.cols_) % SIZE_T_MOD ≤ data.length ∧
      (m.rows_ * m.cols_) % SIZE_T_MOD ≤ m.data_.length
  then some { m with data_ := (data.take ((m.rows_ * m.cols_) % SIZE_T_MOD) ++
    m.data_.drop ((m.rows_ * m.cols_) % SIZE_T_MOD)) }
  else none

namespace Matrix

variable {α : Type}

theorem index_lt {i j r c : Nat} (hi : i < r) (hj : j < c) : i * c + j < r * c :=
  calc i * c + j < i * c + c := Nat.add_lt_add_left hj _
    _ = (i + 1) * c := (Nat.succ_mul i c).symm
    _ ≤ r * c := Nat.mul_le_mul_right c hi

theorem flat_index_inj {c i j i' j' : Nat} (hj : j < c) (hj' : j' < c)
    (h : i * c + j = i' * c + j') : i = i' ∧ j = j' := by
  have hjj : j = j' := by
    have h2 := congrArg (· % c) h
    simpa [Nat.mul_add_mod', Nat.mod_eq_of_lt hj, Nat.mod_eq_of_lt hj'] using h2
  subst hjj
  have h3 : i * c = i' * c := by omega
  exact ⟨Nat.eq_of_mul_eq_mul_right (by omega) h3, rfl⟩

theorem getD_set_ne (l : List α) (d x : α) {n n' : Nat} (h : n ≠ n') :
    (l.set n x).getD n' d = l.getD n' d := by
  rw [List.getD_eq_getD_get?, List.getD_eq_getD_get?, List.get?_eq_getElem?,
    List.get?_eq_getElem?, List.getElem?_set_ne h]

theorem at?_oob {m : Matrix α} {i j : Nat} (h : i ≥ m.rows_ ∨ j ≥ m.cols_) :
    m.at? i j = .error .indexOutOfRange := by
  unfold at?; rw [if_pos h]

theorem setAt?_oob {m : Matrix α} {i j : Nat} (h : i ≥ m.rows_ ∨ j ≥ m.cols_) (x : α) :
    m.setAt? i j x = .error .indexOutOfRange := by
  unfold setAt?; rw [if_pos h]

theorem at?_eq_entry [Zero α] {m : Matrix α} (hm : Valid m) {i j : Nat}
    (hi : i < m.rows_) (hj : j < m.cols_) :
    m.at? i j = .ok (some (entry m i j)) := by
  obtain ⟨-, -, hlen, -, -, hsd⟩ := hm
  have hidx : i * m.cols_ + j < m.data_.length := hlen ▸ index_lt hi hj
  have hmod : (i * m.cols_ + j) % SIZE_T_MOD = i * m.cols_ + j :=
    Nat.mod_eq_of_lt (lt_trans hidx hsd)
  unfold at? entry
  rw [if_neg (by omega), hmod, List.getElem?_eq_getElem hidx,
    List.getD_eq_getElem _ _ hidx]

theorem setAt?_ok {m : Matrix α} (hm : Valid m) {i j : Nat}
    (hi : i < m.rows_) (hj : j < m.cols_) (x : α) :
    m.setAt? i j x = .ok (some (upd m i j x)) := by
  obtain ⟨-, -, hlen, -, -, hsd⟩ := hm
  have hidx : i * m.cols_ + j < m.data_.length := hlen ▸ index_lt hi hj
  have hmod : (i * m.cols_ + j) % SIZE_T_MOD = i * m.cols_ + j :=
    Nat.mod_eq_of_lt (lt_trans hidx hsd)
  unfold setAt? setIdx? upd
  rw [if_neg (by omega), hmod, if_pos hidx]
  rfl

theorem valid_upd {m : Matrix α} (hm : Valid m) (i j : Nat) (x : α) :
    Valid (upd m i j x) := by
  obtain ⟨h1, h2, h3, h4, h5, h6⟩ := hm
  exact ⟨h1, h2, by simp [upd, h3], h4, h5, by simp [upd]; omega⟩

@[simp] theorem upd_rows (m : Matrix α) (i j : Nat) (x : α) :
    (upd m i j x).rows_ = m.rows_ := rfl

@[simp] theorem upd_cols (m : Matrix α) (i j : Nat) (x : α) :
    (upd m i j x).cols_ = m.cols_ := rfl

theorem entry_upd_self [Zero α] {m : Matrix α} {i j : Nat}
    (hidx : i * m.cols_ + j < m.data_.length) (x : α) :
    entry (upd m i j x) i j = x := by
  unfold entry upd
  simp only
  rw [List.getD_eq_getElem _ _ (by simpa using hidx)]
  exact List.getElem_set_self _

theorem entry_upd_ne [Zero α] {m : Matrix α} {i j i' j' : Nat}
    (hj : j < m.cols_) (hj' : j' < m.cols_) (hne : ¬(i' = i ∧ j' = j)) (x : α) :
    entry (upd m i j x) i' j' = entry m i' j' := by
  have hidx : i * m.cols_ + j ≠ i' * m.cols_ + j' := by
    intro h
    exact hne ⟨(flat_index_inj hj hj' h).1.symm, (flat_index_inj hj hj' h).2.symm⟩
  unfold entry upd
  simp only
  exact getD_set_ne _ _ _ hidx

theorem mulSum_eq [Zero α] [Add α] [Mul α] {a b : Matrix α}
    (ha : Valid a) (hb : Valid b) (hab : a.cols_ = b.rows_)
    {i j : Nat} (hi : i < a.rows_) (hj : j < b.cols_) :
    ∀ ks : List Nat, (∀ k ∈ ks, k < a.cols_) → ∀ acc : α,
      mulSum a b i j ks acc =
        .ok (some (ks.foldl (fun s k => s + entry a i k * entry b k j) acc)) := by
  intro ks
  induction ks with
  | nil => intro _ acc; rfl
  | cons k ks ih =>
    intro hks acc
    have hk : k < a.cols_ := hks k (by simp)
    have hk' : k < b.rows_ := hab ▸ hk
    rw [List.foldl_cons]
    simp only [mulSum, at?_eq_entry ha hi hk, at?_eq_entry hb hk' hj]
    exact ih (fun k hmem => hks k (by simp [hmem])) _

theorem mulInner_eq [Zero α] [Add α] [Mul α] {a b : Matrix α}
    (ha : Valid a) (hb : Valid b) (hab : a.cols_ = b.rows_)
    {i : Nat} (hi : i < a.rows_) :
    ∀ js : List Nat, (∀ j ∈ js, j < b.cols_) →
      ∀ r : Matrix α, Valid r → r.rows_ = a.rows_ → r.cols_ = b.cols_ →
      ∃ r', mulInner a b i js r = .ok (some r') ∧ Valid r' ∧
        r'.rows_ = a.rows_ ∧ r'.cols_ = b.cols_ ∧
        ∀ i' j', i' < a.rows_ → j' < b.cols_ →
          entry r' i' j' =
            if i' = i ∧ j' ∈ js then specEntry a b i' j' else entry r i' j' := by
  intro js
  induction js with
  | nil =>
    intro _ r hr hrr hrc
    exact ⟨r, rfl, hr, hrr, hrc, by simp⟩
  | cons j js ih =>
    intro hjs r hr hrr hrc
    have hj : j < b.cols_ := hjs j (by simp)
    have hsum := mulSum_eq ha hb hab hi hj (List.range a.cols_)
      (fun k hk => List.mem_range.mp hk) 0
    have hspec : specEntry a b i j =
        (List.range a.cols_).foldl (fun s k => s + entry a i k * entry b k j) 0 := rfl
    rw [← hspec] at hsum
    have hstore := setAt?_ok hr (by rw [hrr]; exact hi) (by rw [hrc]; exact hj)
      (specEntry a b i j)
    have hv₁ : Valid (upd r i j (specEntry a b i j)) := valid_upd hr i j _
    obtain ⟨r', heq, hv', hr'r, hr'c, hent⟩ :=
      ih (fun j' hm => hjs j' (by simp [hm])) (upd r i j (specEntry a b i j)) hv₁
        hrr hrc
    refine ⟨r', ?_, hv', hr'r, hr'c, ?_⟩
    · simp only [mulInner, hsum, hstore]
      exact heq
    · intro i' j' hi' hj'
      rw [hent i' j' hi' hj']
      by_cases h1 : i' = i ∧ j' ∈ js
      · rw [if_pos h1, if_pos ⟨h1.1, by simp [h1.2]⟩]
      · rw [if_neg h1]
        by_cases h2 : i' = i ∧ j' = j
        · obtain ⟨e1, e2⟩ := h2
          subst e1; subst e2
          rw [entry_upd_self (by
            have : i' * r.cols_ + j' < r.rows_ * r.cols_ :=
              index_lt (by rw [hrr]; exact hi') (by rw [hrc]; exact hj')
            rw [hr.2.2.1]
            exact this) _]
          rw [if_pos ⟨rfl, by simp⟩]
        · rw [entry_upd_ne (by rw [hrc]; exact hj) (by rw [hrc]; exact hj')
            (by tauto) _]
          rw [if_neg (by simp only [List.mem_cons]; tauto)]

theorem mulOuter_eq [Zero α] [Add α] [Mul α] {a b : Matrix α}
    (ha : Valid a) (hb : Valid b) (hab : a.cols_ = b.rows_) :
    ∀ is : List Nat, (∀ i ∈ is, i < a.rows_) →
      ∀ r : Matrix α, Valid r → r.rows_ = a.rows_ → r.cols_ = b.cols_ →
      ∃ r', mulOuter a b is r = .ok (some r') ∧ Valid r' ∧
        r'.rows_ = a.rows_ ∧ r'.cols_ = b.cols_ ∧
        ∀ i' j', i' < a.rows_ → j' < b.cols_ →
          entry r' i' j' =
            if i' ∈ is then specEntry a b i' j' else entry r i' j' := by
  intro is
  induction is with
  | nil =>
    intro _ r hr hrr hrc
    exact ⟨r, rfl, hr, hrr, hrc, by simp⟩
  | cons i is ih =>
    intro his r hr hrr hrc
    have hi : i < a.rows_ := his i (by simp)
    obtain ⟨r₁, heq₁, hv₁, hr₁r, hr₁c, hent₁⟩ :=
      mulInner_eq ha hb hab hi (List.range b.cols_)
        (fun j hj => List.mem_range.mp hj) r hr hrr hrc
    obtain ⟨r', heq, hv', hr'r, hr'c, hent⟩ :=
      ih (fun i' hm => his i' (by simp [hm])) r₁ hv₁ hr₁r hr₁c
    refine ⟨r', ?_, hv', hr'r, hr'c, ?_⟩
    · simp only [mulOuter, heq₁]
      exact heq
    · intro i' j' hi' hj'
      rw [hent i' j' hi' hj', hent₁ i' j' hi' hj']
      by_cases h1 : i' ∈ is
      · rw [if_pos h1, if_pos (by simp [h1])]
      · rw [if_neg h1]
        by_cases h2 : i' = i
        · rw [if_pos ⟨h2, List.mem_range.mpr hj'⟩, if_pos (by simp [h2])]
        · rw [if_neg (by tauto), if_neg (by simp only [List.mem_cons]; tauto)]

theorem mul_ok [Zero α] [Add α] [Mul α] {a b : Matrix α}
    (ha : Valid a) (hb : Valid b) (hab : a.cols_ = b.rows_)
    (hsz : SizeT (a.rows_ * b.cols_)) :
    ∃ c, mul a b = .ok (some c) ∧ Valid c ∧ c.rows_ = a.rows_ ∧ c.cols_ = b.cols_ ∧
      ∀ i j, i < a.rows_ → j < b.cols_ → entry c i j = specEntry a b i j := by
  have har : 0 < a.rows_ := ha.1
  have hbc : 0 < b.cols_ := hb.2.1
  have hz : construct2 a.rows_ b.cols_ =
      .ok (⟨a.rows_, b.cols_,
        List.replicate ((a.rows_ * b.cols_) % SIZE_T_MOD) 0⟩ : Matrix α) := by
    unfold construct2
    rw [if_neg (by omega)]
  have hzv : Valid (⟨a.rows_, b.cols_,
      List.replicate ((a.rows_ * b.cols_) % SIZE_T_MOD) 0⟩ : Matrix α) := by
    refine ⟨har, hbc, ?_, ha.2.2.2.1, hb.2.2.2.2.1, ?_⟩
    · simp [Nat.mod_eq_of_lt hsz]
    · simp [Nat.mod_eq_of_lt hsz]
      exact hsz
  obtain ⟨c, heq, hv, hcr, hcc, hent⟩ :=
    mulOuter_eq ha hb hab (List.range a.rows_)
      (fun i hi => List.mem_range.mp hi)
      ⟨a.rows_, b.cols_, List.replicate ((a.rows_ * b.cols_) % SIZE_T_MOD) 0⟩
      hzv rfl rfl
  refine ⟨c, ?_, hv, hcr, hcc, ?_⟩
  · unfold mul
    rw [if_neg (by omega), hz]
    exact heq
  · intro i j hi hj
    rw [hent i j hi hj, if_pos (List.mem_range.mpr hi)]

theorem transInner_eq [Zero α] {m : Matrix α} (hm : Valid m)
    {i : Nat} (hi : i < m.rows_) :
    ∀ js : List Nat, (∀ j ∈ js, j < m.cols_) →
      ∀ r : Matrix α, Valid r → r.rows_ = m.cols_ → r.cols_ = m.rows_ →
      ∃ r', transInner m i js r = .ok (some r') ∧ Valid r' ∧
        r'.rows_ = m.cols_ ∧ r'.cols_ = m.rows_ ∧
        ∀ p q, p < m.cols_ → q < m.rows_ →
          entry r' p q = if q = i ∧ p ∈ js then entry m q p else entry r p q := by
  intro js
  induction js with
  | nil =>
    intro _ r hr hrr hrc
    exact ⟨r, rfl, hr, hrr, hrc, by simp⟩
  | cons j js ih =>
    intro hjs r hr hrr hrc
    have hj : j < m.cols_ := hjs j (by simp)
    have hread := at?_eq_entry hm hi hj
    have hstore := setAt?_ok hr (by rw [hrr]; exact hj) (by rw [hrc]; exact hi)
      (entry m i j)
    have hv₁ : Valid (upd r j i (entry m i j)) := valid_upd hr j i _
    obtain ⟨r', heq, hv', hr'r, hr'c, hent⟩ :=
      ih (fun j' hmem => hjs j' (by simp [hmem])) (upd r j i (entry m i j)) hv₁
        hrr hrc
    refine ⟨r', ?_, hv', hr'r, hr'c, ?_⟩
    · simp only [transInner, hread, hstore]
      exact heq
    · intro p q hp hq
      rw [hent p q hp hq]
      by_cases h1 : q = i ∧ p ∈ js
      · rw [if_pos h1, if_pos ⟨h1.1, by simp [h1.2]⟩]
      · rw [if_neg h1]
        by_cases h2 : p = j ∧ q = i
        · obtain ⟨e1, e2⟩ := h2
          subst e1; subst e2
          rw [entry_upd_self (by
            have h3 : p * r.cols_ + q < r.rows_ * r.cols_ :=
              index_lt (by rw [hrr]; exact hp) (by rw [hrc]; exact hq)
            rw [hr.2.2.1]
            exact h3) _]
          rw [if_pos ⟨rfl, by simp⟩]
        · rw [entry_upd_ne (by rw [hrc]; exact hi) (by rw [hrc]; exact hq)
            (by tauto) _]
          rw [if_neg (by simp only [List.mem_cons]; tauto)]

theorem transOuter_eq [Zero α] {m : Matrix α} (hm : Valid m) :
    ∀ is : List Nat, (∀ i ∈ is, i < m.rows_) →
      ∀ r : Matrix α, Valid r → r.rows_ = m.cols_ → r.cols_ = m.rows_ →
      ∃ r', transOuter m is r = .ok (some r') ∧ Valid r' ∧
        r'.rows_ = m.cols_ ∧ r'.cols_ = m.rows_ ∧
        ∀ p q, p < m.cols_ → q < m.rows_ →
          entry r' p q = if q ∈ is then entry m q p else entry r p q := by
  intro is
  induction is with
  | nil =>
    intro _ r hr hrr hrc
    exact ⟨r, rfl, hr, hrr, hrc, by simp⟩
  | cons i is ih =>
    intro his r hr hrr hrc
    have hi : i < m.rows_ := his i (by simp)
    obtain ⟨r₁, heq₁, hv₁, hr₁r, hr₁c, hent₁⟩ :=
      transInner_eq hm hi (List.range m.cols_)
        (fun j hj => List.mem_range.mp hj) r hr hrr hrc
    obtain ⟨r', heq, hv', hr'r, hr'c, hent⟩ :=
      ih (fun i' hmem => his i' (by simp [hmem])) r₁ hv₁ hr₁r hr₁c
    refine ⟨r', ?_, hv', hr'r, hr'c, ?_⟩
    · simp only [transOuter, heq₁]
      exact heq
    · intro p q hp hq
      rw [hent p q hp hq, hent₁ p q hp hq]
      by_cases h1 : q ∈ is
      · rw [if_pos h1, if_pos (by simp [h1])]
      · rw [if_neg h1]
        by_cases h2 : q = i
        · rw [if_pos ⟨h2, List.mem_range.mpr hp⟩, if_pos (by simp [h2])]
        · rw [if_neg (by tauto), if_neg (by simp only [List.mem_cons]; tauto)]

theorem transpose_ok [Zero α] {m : Matrix α} (hm : Valid m) :
    ∃ t, transpose m = .ok (some t) ∧ Valid t ∧
      t.rows_ = m.cols_ ∧ t.cols_ = m.rows_ ∧
      ∀ p q, p < m.cols_ → q < m.rows_ → entry t p q = entry m q p := by
  have hmr : 0 < m.rows_ := hm.1
  have hmc : 0 < m.cols_ := hm.2.1
  have hsz : SizeT (m.cols_ * m.rows_) := by
    have h1 := hm.2.2.1
    have h2 := hm.2.2.2.2.2
    rw [Nat.mul_comm]
    omega
  have hz : construct2 m.cols_ m.rows_ =
      .ok (⟨m.cols_, m.rows_,
        List.replicate ((m.cols_ * m.rows_) % SIZE_T_MOD) 0⟩ : Matrix α) := by
    unfold construct2
    rw [if_neg (by omega)]
  have hzv : Valid (⟨m.cols_, m.rows_,
      List.replicate ((m.cols_ * m.rows_) % SIZE_T_MOD) 0⟩ : Matrix α) := by
    refine ⟨hmc, hmr, ?_, hm.2.2.2.2.1, hm.2.2.2.1, ?_⟩
    · simp [Nat.mod_eq_of_lt hsz]
    · simp [Nat.mod_eq_of_lt hsz]
      exact hsz
  obtain ⟨t, heq, hv, htr, htc, hent⟩ :=
    transOuter_eq hm (List.range m.rows_)
      (fun i hi => List.mem_range.mp hi)
      ⟨m.cols_, m.rows_, List.replicate ((m.cols_ * m.rows_) % SIZE_T_MOD) 0⟩
      hzv rfl rfl
  refine ⟨t, ?_, hv, htr, htc, ?_⟩
  · unfold transpose
    rw [hz]
    exact heq
  · intro p q hp hq
    rw [hent p q hp hq, if_pos (List.mem_range.mpr hq)]

theorem addLoop_eq [Add α] (b : List α) :
    ∀ (xs : List α) (i : Nat) (r : Matrix α),
      i + xs.length ≤ b.length → i + xs.length ≤ r.data_.length →
      ∃ r', addLoop b xs i r = some r' ∧ r'.rows_ = r.rows_ ∧ r'.cols_ = r.cols_ ∧
        r'.data_.length = r.data_.length ∧
        (∀ n, n < i ∨ i + xs.length ≤ n → r'.data_[n]? = r.data_[n]?) ∧
        (∀ k, k < xs.length → ∀ x y, xs[k]? = some x → b[i + k]? = some y →
          r'.data_[i + k]? = some (x + y)) := by
  intro xs
  induction xs with
  | nil =>
    intro i r _ _
    exact ⟨r, rfl, rfl, rfl, rfl, fun _ _ => rfl, fun k hk => by simp at hk⟩
  | cons x xs ih =>
    intro i r hb hr
    have hib : i < b.length := by simp only [List.length_cons] at hb; omega
    have hir : i < r.data_.length := by simp only [List.length_cons] at hr; omega
    have hbi : b[i]? = some b[i] := List.getElem?_eq_getElem hib
    have hset : setIdx? r.data_ i (x + b[i]) = some (r.data_.set i (x + b[i])) := by
      unfold setIdx?
      rw [if_pos hir]
    obtain ⟨r', heq, hrr, hrc, hlen, huntouched, hwritten⟩ :=
      ih (i + 1) { r with data_ := r.data_.set i (x + b[i]) }
        (by simp only [List.length_cons] at hb; omega)
        (by
          show i + 1 + xs.length ≤ (r.data_.set i (x + b[i])).length
          rw [List.length_set]
          simp only [List.length_cons] at hr
          omega)
    have hlen' : r'.data_.length = r.data_.length := by
      rw [hlen]
      show (r.data_.set i (x + b[i])).length = r.data_.length
      exact List.length_set r.data_ i _
    refine ⟨r', ?_, hrr, hrc, hlen', ?_, ?_⟩
    · simp only [addLoop, hbi, hset]
      exact heq
    · intro n hn
      simp only [List.length_cons] at hn
      have h1 : r'.data_[n]? = (r.data_.set i (x + b[i]))[n]? :=
        huntouched n (by omega)
      rw [h1, List.getElem?_set_ne (by omega)]
    · intro k hk x' y hx' hy
      cases k with
      | zero =>
        simp only [List.getElem?_cons_zero, Option.some.injEq] at hx'
        subst hx'
        rw [Nat.add_zero] at hy ⊢
        rw [hbi] at hy
        injection hy with hyv
        subst hyv
        have h1 : r'.data_[i]? = (r.data_.set i (x + b[i]))[i]? :=
          huntouched i (Or.inl (by omega))
        rw [h1]
        exact List.getElem?_set_eq_of_lt (x + b[i]) hir
      | succ k =>
        simp only [List.getElem?_cons_succ] at hx'
        have h1 := hwritten k (by simp only [List.length_cons] at hk; omega) x' y hx'
          (by rw [show i + 1 + k = i + (k + 1) by omega]; exact hy)
        rw [show i + (k + 1) = i + 1 + k by omega]
        exact h1

theorem add_ok [Zero α] [Add α] {a b : Matrix α}
    (ha : Valid a) (hb : Valid b) (hrw : a.rows_ = b.rows_) (hcl : a.cols_ = b.cols_) :
    ∃ c, add a b = .ok (some c) ∧ Valid c ∧ c.rows_ = a.rows_ ∧ c.cols_ = a.cols_ ∧
      ∀ i j, i < a.rows_ → j < a.cols_ →
        entry c i j = entry a i j + entry b i j := by
  have har : 0 < a.rows_ := ha.1
  have hac : 0 < a.cols_ := ha.2.1
  have halen := ha.2.2.1
  have hasz := ha.2.2.2.2.2
  have hblen := hb.2.2.1
  have hsz : SizeT (a.rows_ * a.cols_) := by omega
  have hz : construct2 a.rows_ a.cols_ =
      .ok (⟨a.rows_, a.cols_,
        List.replicate ((a.rows_ * a.cols_) % SIZE_T_MOD) 0⟩ : Matrix α) := by
    unfold construct2
    rw [if_neg (by omega)]
  have hzlen : (List.replicate ((a.rows_ * a.cols_) % SIZE_T_MOD) (0 : α)).length
      = a.data_.length := by
    simp [Nat.mod_eq_of_lt hsz, halen]
  obtain ⟨c, heq, hcr, hcc, hclen, -, hwritten⟩ :=
    addLoop_eq b.data_ a.data_ 0
      (⟨a.rows_, a.cols_, List.replicate ((a.rows_ * a.cols_) % SIZE_T_MOD) 0⟩ :
        Matrix α)
      (by simp only [Nat.zero_add]; rw [halen, hblen, hrw, hcl])
      (by simp only [Nat.zero_add]; rw [hzlen])
  have hcl' : c.data_.length = a.rows_ * a.cols_ := by
    rw [hclen]
    show (List.replicate ((a.rows_ * a.cols_) % SIZE_T_MOD) (0 : α)).length
      = a.rows_ * a.cols_
    simp [Nat.mod_eq_of_lt hsz]
  have e0 : c.rows_ = a.rows_ := hcr
  have e1 : c.cols_ = a.cols_ := hcc
  refine ⟨c, ?_, ⟨by rw [e0]; exact har, by rw [e1]; exact hac, ?_, ?_, ?_, ?_⟩,
    e0, e1, ?_⟩
  · unfold add
    rw [if_neg (by omega), hz]
    exact congrArg Except.ok heq
  · rw [hcl', e0, e1]
  · rw [e0]; exact ha.2.2.2.1
  · rw [e1]; exact ha.2.2.2.2.1
  · rw [hcl']; exact hsz
  · intro i j hi hj
    have e2 : b.cols_ = a.cols_ := hcl.symm
    have hidx : i * a.cols_ + j < a.rows_ * a.cols_ := index_lt hi hj
    have hidxa : i * a.cols_ + j < a.data_.length := by omega
    have hidxb : i * a.cols_ + j < b.data_.length := by
      rw [hblen, ← hrw, ← hcl]
      exact hidx
    have hidxc : i * a.cols_ + j < c.data_.length := by omega
    have h1 := hwritten (i * a.cols_ + j) (by omega) a.data_[i * a.cols_ + j]
      b.data_[i * a.cols_ + j] (List.getElem?_eq_getElem hidxa)
      (by rw [Nat.zero_add]; exact List.getElem?_eq_getElem hidxb)
    rw [Nat.zero_add] at h1
    have h2 : c.data_[i * a.cols_ + j] =
        a.data_[i * a.cols_ + j] + b.data_[i * a.cols_ + j] := by
      have h3 := List.getElem?_eq_getElem hidxc
      rw [h1] at h3
      exact (Option.some.inj h3).symm
    unfold entry
    rw [e1, e2]
    rw [List.getD_eq_getElem _ _ hidxa, List.getD_eq_getElem _ _ hidxb,
      List.getD_eq_getElem _ _ hidxc]
    exact h2

theorem getD_replicate_zero [Zero α] (n idx : Nat) :
    (List.replicate n (0 : α)).getD idx 0 = 0 := by
  by_cases h : idx < n
  · rw [List.getD_eq_getElem _ _ (by simpa using h)]
    simp
  · exact List.getD_eq_default _ _ (by simpa using h)

theorem entry_replicate_matrix [Zero α] (rows cols n i j : Nat) :
    entry (⟨rows, cols, List.replicate n (0 : α)⟩ : Matrix α) i j = 0 :=
  getD_replicate_zero n _

theorem construct2_ok [Zero α] {rows cols : Nat} (hr : rows ≠ 0) (hc : cols ≠ 0) :
    construct2 (α := α) rows cols =
      .ok ⟨rows, cols, List.replicate ((rows * cols) % SIZE_T_MOD) 0⟩ := by
  unfold construct2
  rw [if_neg (by omega)]

theorem construct2_valid [Zero α] {rows cols : Nat} (hr : rows ≠ 0) (hc : cols ≠ 0)
    (hsz : SizeT (rows * cols)) :
    Valid (⟨rows, cols, List.replicate ((rows * cols) % SIZE_T_MOD) 0⟩ : Matrix α) := by
  have h1 : rows ≤ rows * cols := Nat.le_mul_of_pos_right rows (by omega)
  have h2 : cols ≤ rows * cols := Nat.le_mul_of_pos_left cols (by omega)
  have hsz' : rows * cols < SIZE_T_MOD := hsz
  refine ⟨?_, ?_, ?_, ?_, ?_, ?_⟩
  · show 0 < rows
    omega
  · show 0 < cols
    omega
  · simp [Nat.mod_eq_of_lt hsz]
  · show rows < SIZE_T_MOD
    omega
  · show cols < SIZE_T_MOD
    omega
  · show (List.replicate ((rows * cols) % SIZE_T_MOD) (0 : α)).length < SIZE_T_MOD
    simp only [List.length_replicate]
    rw [Nat.mod_eq_of_lt hsz]
    exact hsz'

/-- C4 (amended): `Construct(rows, cols)` fails with `InvalidDimension`
exactly when `rows == 0` or `cols == 0`; otherwise it yields a Matrix of
shape `(rows, cols)` and, whenever the product `rows * cols` does not
overflow `size_t`, every element reads as zero.  (The original claim
asserts the zero reads for all shapes; the counterexample
`construct2_zero_matrix_cex` shows the overflowing shape `2^32 × 2^32`
succeeds with an empty buffer, so element reads there are undefined.) -/
theorem construct2_zero_matrix {α : Type} [Zero α] (rows cols : Nat) :
    (construct2 (α := α) rows cols = .error .invalidDimension ↔
      rows = 0 ∨ cols = 0) ∧
    (rows ≠ 0 → cols ≠ 0 → ∃ m : Matrix α, construct2 rows cols = .ok m ∧
      m.rows_ = rows ∧ m.cols_ = cols ∧
      (SizeT (rows * cols) →
        ∀ i j, i < rows → j < cols → m.at? i j = .ok (some 0))) := by
  constructor
  · by_cases h : rows = 0 ∨ cols = 0
    · unfold construct2
      rw [if_pos h]
      simp [h]
    · rw [construct2_ok (by omega) (by omega)]
      simp [h]
  · intro hr hc
    refine ⟨_, construct2_ok hr hc, rfl, rfl, ?_⟩
    intro hsz i j hi hj
    have hv := construct2_valid (α := α) hr hc hsz
    rw [at?_eq_entry hv hi hj, entry_replicate_matrix]

theorem construct2_zero_matrix_witness :
    (2 ≠ 0) ∧ (3 ≠ 0) ∧
    (∃ m : Matrix Int, construct2 2 3 = .ok m ∧ m.rows_ = 2 ∧ m.cols_ = 3 ∧
      (SizeT (2 * 3) → ∀ i j, i < 2 → j < 3 → m.at? i j = .ok (some 0))) :=
  ⟨by decide, by decide, (construct2_zero_matrix 2 3).2 (by decide) (by decide)⟩

/-- C4 counterexample: at `rows = cols = 2^32` the `size_t` product
wraps to `0`, so the constructor succeeds with an *empty* buffer: the
claimed zero-filled matrix does not exist — reading element `(0, 0)` is
an out-of-buffer access (undefined), not the value `0.0`. -/
theorem construct2_zero_matrix_cex :
    construct2 4294967296 4294967296 =
      .ok (⟨4294967296, 4294967296, []⟩ : Matrix Int) ∧
    (⟨4294967296, 4294967296, ([] : List Int)⟩ : Matrix Int).at? 0 0 = .ok none ∧
    (Except.ok none : Except Err (Option Int)) ≠ .ok (some 0) := by
  refine ⟨?_, ?_, ?_⟩ <;> decide

/-- C5 (amended): the data constructor fails with `InvalidDimension` on a
zero dimension, and fails with `SizeMismatch` exactly when `data.length`
differs from the `size_t` product `rows * cols` computed mod `2^64` (the
original claim compares with the mathematical product; the
counterexample `construct3_row_major_cex` separates the two); on success
with a non-overflowing product, the element at `(r, c)` is
`data[r * cols + c]`. -/
theorem construct3_row_major {α : Type} [Zero α] (rows cols : Nat) (data : List α) :
    ((rows = 0 ∨ cols = 0) →
      construct3 rows cols data = .error .invalidDimension) ∧
    (rows ≠ 0 → cols ≠ 0 → data.length ≠ (rows * cols) % SIZE_T_MOD →
      construct3 rows cols data = .error .sizeMismatch) ∧
    (rows ≠ 0 → cols ≠ 0 → data.length = rows * cols → SizeT (rows * cols) →
      ∃ m : Matrix α, construct3 rows cols data = .ok m ∧
        m.rows_ = rows ∧ m.cols_ = cols ∧
        ∀ r c, r < rows → c < cols →
          ∃ x, data[r * cols + c]? = some x ∧ m.at? r c = .ok (some x)) := by
  refine ⟨?_, ?_, ?_⟩
  · intro h
    unfold construct3
    rw [if_pos h]
  · intro hr hc hlen
    unfold construct3
    rw [if_neg (by omega), if_pos hlen]
  · intro hr hc hlen hsz
    have hok : construct3 rows cols data = .ok ⟨rows, cols, data⟩ := by
      unfold construct3
      rw [if_neg (by omega), if_neg (by rw [Nat.mod_eq_of_lt hsz]; simp [hlen])]
    refine ⟨⟨rows, cols, data⟩, hok, rfl, rfl, ?_⟩
    intro r c hrr hcc
    have h1 : rows ≤ rows * cols := Nat.le_mul_of_pos_right rows (by omega)
    have h2 : cols ≤ rows * cols := Nat.le_mul_of_pos_left cols (by omega)
    have hv : Valid (⟨rows, cols, data⟩ : Matrix α) := by
      have hsz' : rows * cols < SIZE_T_MOD := hsz
      refine ⟨?_, ?_, hlen, ?_, ?_, ?_⟩
      · show 0 < rows
        omega
      · show 0 < cols
        omega
      · show rows < SIZE_T_MOD
        omega
      · show cols < SIZE_T_MOD
        omega
      · show data.length < SIZE_T_MOD
        omega
    have hidx : r * cols + c < data.length := by
      rw [hlen]
      exact index_lt hrr hcc
    refine ⟨data[r * cols + c], List.getElem?_eq_getElem hidx, ?_⟩
    rw [at?_eq_entry hv hrr hcc]
    show Except.ok (some (data.getD (r * cols + c) 0)) = _
    rw [List.getD_eq_getElem _ _ hidx]

theorem construct3_row_major_witness :
    (2 ≠ 0) ∧ (3 ≠ 0) ∧ (([1, 2, 3, 4, 5, 6] : List Int).length = 2 * 3) ∧
    SizeT (2 * 3) ∧
    (∃ m : Matrix Int, construct3 2 3 [1, 2, 3, 4, 5, 6] = .ok m ∧
      m.rows_ = 2 ∧ m.cols_ = 3 ∧
      ∀ r c, r < 2 → c < 3 →
        ∃ x, ([1, 2, 3, 4, 5, 6] : List Int)[r * 3 + c]? = some x ∧
          m.at? r c = .ok (some x)) :=
  ⟨by decide, by decide, by decide, by decide,
    (construct3_row_major 2 3 [1, 2, 3, 4, 5, 6]).2.2 (by decide) (by decide)
      (by decide) (by decide)⟩

/-- C5 counterexample: at `rows = cols = 2^32` the empty data sequence
has `data.length = 0 ≠ rows * cols = 2^64`, yet the constructor does not
fail with `SizeMismatch` — it succeeds, because the comparison uses the
wrapped `size_t` product `0`. -/
theorem construct3_row_major_cex :
    ([] : List Int).length ≠ 4294967296 * 4294967296 ∧
    construct3 4294967296 4294967296 ([] : List Int) =
      .ok (⟨4294967296, 4294967296, []⟩ : Matrix Int) := by
  constructor <;> decide

/-- C10: the size check of the data constructor runs in `size_t`
arithmetic (mod `2^64`): for `rows = cols = 2^32` (positive, with
mathematical product `2^64 ≥ 2^64`), a data sequence of length
`0 = 2^64 mod 2^64` is accepted without `SizeMismatch`, and the stored
data length differs from the mathematical product `rows * cols`. -/
theorem construct3_size_check_wraps :
    0 < (4294967296 : Nat) ∧
    18446744073709551616 ≤ 4294967296 * 4294967296 ∧
    ([] : List Int).length = (4294967296 * 4294967296) % SIZE_T_MOD ∧
    construct3 4294967296 4294967296 ([] : List Int) =
      .ok (⟨4294967296, 4294967296, []⟩ : Matrix Int) ∧
    (⟨4294967296, 4294967296, ([] : List Int)⟩ : Matrix Int).data_.length ≠
      4294967296 * 4294967296 := by
  refine ⟨?_, ?_, ?_, ?_, ?_⟩ <;> decide

/-- C6 (amended): on every *valid* matrix ,  `At` fails with
`IndexOutOfRange` exactly when `row ≥ rows` or `col ≥ cols`, in both the
read and the read-write variant (the check runs on every access), and an
in-bounds access returns the element stored at row-major index
`row * cols + col`.  (The original claim states the in-bounds clause for
every matrix: the counterexample `at_bounds_checked_cex` exhibits a
constructible matrix with an overflowing shape on which the `size_t`
index computation wraps and a different element is returned.) -/
theorem at_bounds_checked {α : Type} [Zero α] (m : Matrix α) (hm : Valid m)
    (row col : Nat) (x : α) :
    (m.at? row col = .error .indexOutOfRange ↔
      (m.rows_ ≤ row ∨ m.cols_ ≤ col)) ∧
    (m.setAt? row col x = .error .indexOutOfRange ↔
      (m.rows_ ≤ row ∨ m.cols_ ≤ col)) ∧
    (row < m.rows_ → col < m.cols_ →
      ∃ v, m.data_[row * m.cols_ + col]? = some v ∧
        m.at? row col = .ok (some v)) := by
  refine ⟨?_, ?_, ?_⟩
  · by_cases h : m.rows_ ≤ row ∨ m.cols_ ≤ col
    · rw [at?_oob h]
      simp [h]
    · rw [at?_eq_entry hm (by omega) (by omega)]
      simp [h]
  · by_cases h : m.rows_ ≤ row ∨ m.cols_ ≤ col
    · rw [setAt?_oob h]
      simp [h]
    · rw [setAt?_ok hm (by omega) (by omega)]
      simp [h]
  · intro hr hc
    have hidx : row * m.cols_ + col < m.data_.length := by
      rw [hm.2.2.1]
      exact index_lt hr hc
    refine ⟨m.data_[row * m.cols_ + col], List.getElem?_eq_getElem hidx, ?_⟩
    rw [at?_eq_entry hm hr hc]
    show Except.ok (some (m.data_.getD (row * m.cols_ + col) 0)) = _
    rw [List.getD_eq_getElem _ _ hidx]

theorem at_bounds_checked_witness :
    Valid (⟨2, 2, [1, 2, 3, 4]⟩ : Matrix Int) ∧
    (((⟨2, 2, [1, 2, 3, 4]⟩ : Matrix Int).at? 1 1 = .error .indexOutOfRange ↔
        (2 ≤ 1 ∨ 2 ≤ 1)) ∧
      ((⟨2, 2, [1, 2, 3, 4]⟩ : Matrix Int).setAt? 1 1 7 =
          .error .indexOutOfRange ↔ (2 ≤ 1 ∨ 2 ≤ 1)) ∧
      (1 < 2 → 1 < 2 → ∃ v, ([1, 2, 3, 4] : List Int)[1 * 2 + 1]? = some v ∧
        (⟨2, 2, [1, 2, 3, 4]⟩ : Matrix Int).at? 1 1 = .ok (some v))) :=
  ⟨by decide, at_bounds_checked ⟨2, 2, [1, 2, 3, 4]⟩ (by decide) 1 1 7⟩

/-- C6 counterexample: the matrix of shape `2 × (2^63 + 1)` with 2 stored
values is constructible (its buffer length `2` equals the wrapped
`size_t` product), and the in-bounds access `At(1, 2^63 - 1)` returns the
element `10` stored at index `0` — the `size_t` index
`1 * (2^63 + 1) + (2^63 - 1) = 2^64` wrapped to `0` — not the element
stored at the mathematical index `2^64`, where the buffer holds nothing. -/
theorem at_bounds_checked_cex :
    construct3 2 9223372036854775809 ([10, 20] : List Int) =
      .ok (⟨2, 9223372036854775809, [10, 20]⟩ : Matrix Int) ∧
    (⟨2, 9223372036854775809, [10, 20]⟩ : Matrix Int).at? 1
      9223372036854775807 = .ok (some 10) ∧
    ([10, 20] : List Int)[1 * 9223372036854775809 + 9223372036854775807]? =
      none := by
  refine ⟨?_, ?_, ?_⟩ <;> decide

/-- C2: `Add` fails with `DimensionMismatch` when the shapes differ
(rows or cols unequal), and otherwise returns a new matrix of the same
shape whose every element at `(i, j)` is `A[i][j] + B[i][j]`. -/
theorem add_correct {α : Type} [Zero α] [Add α] (a b : Matrix α)
    (ha : Valid a) (hb : Valid b) :
    ((a.rows_ ≠ b.rows_ ∨ a.cols_ ≠ b.cols_) →
      add a b = .error .dimensionMismatch) ∧
    (a.rows_ = b.rows_ → a.cols_ = b.cols_ →
      ∃ c, add a b = .ok (some c) ∧ c.rows_ = a.rows_ ∧ c.cols_ = a.cols_ ∧
        ∀ i j, i < a.rows_ → j < a.cols_ →
          c.at? i j = .ok (some (entry a i j + entry b i j))) := by
  constructor
  · intro h
    unfold add
    rw [if_pos h]
  · intro h1 h2
    obtain ⟨c, heq, hv, hcr, hcc, hent⟩ := add_ok ha hb h1 h2
    refine ⟨c, heq, hcr, hcc, ?_⟩
    intro i j hi hj
    rw [at?_eq_entry hv (by rw [hcr]; exact hi) (by rw [hcc]; exact hj),
      hent i j hi hj]

theorem add_correct_witness :
    Valid (⟨2, 2, [1, 2, 3, 4]⟩ : Matrix Int) ∧
    Valid (⟨2, 2, [5, 6, 7, 8]⟩ : Matrix Int) ∧
    ((((2 : Nat) ≠ 2 ∨ (2 : Nat) ≠ 2) →
      add (⟨2, 2, [1, 2, 3, 4]⟩ : Matrix Int) ⟨2, 2, [5, 6, 7, 8]⟩ =
        .error .dimensionMismatch) ∧
    ((2 : Nat) = 2 → (2 : Nat) = 2 →
      ∃ c, add (⟨2, 2, [1, 2, 3, 4]⟩ : Matrix Int) ⟨2, 2, [5, 6, 7, 8]⟩ =
        .ok (some c) ∧ c.rows_ = 2 ∧ c.cols_ = 2 ∧
        ∀ i j, i < 2 → j < 2 →
          c.at? i j = .ok (some (entry (⟨2, 2, [1, 2, 3, 4]⟩ : Matrix Int) i j +
            entry (⟨2, 2, [5, 6, 7, 8]⟩ : Matrix Int) i j)))) :=
  ⟨by decide, by decide,
    add_correct ⟨2, 2, [1, 2, 3, 4]⟩ ⟨2, 2, [5, 6, 7, 8]⟩ (by decide) (by decide)⟩

/-- C9: adding the zero matrix of M's shape to a valid matrix M gives M
back elementwise. -/
theorem add_zero_identity {α : Type} [AddZeroClass α] (m z : Matrix α)
    (hm : Valid m) (hz : construct2 m.rows_ m.cols_ = .ok z) :
    ∃ c, add m z = .ok (some c) ∧ c.rows_ = m.rows_ ∧ c.cols_ = m.cols_ ∧
      ∀ i j, i < m.rows_ → j < m.cols_ → c.at? i j = m.at? i j := by
  have hr0 : m.rows_ ≠ 0 := by have := hm.1; omega
  have hc0 : m.cols_ ≠ 0 := by have := hm.2.1; omega
  have hsz : m.rows_ * m.cols_ < SIZE_T_MOD := by
    have h1 := hm.2.2.1
    have h2 := hm.2.2.2.2.2
    omega
  rw [construct2_ok hr0 hc0] at hz
  injection hz with hz'
  have hzv : Valid z := hz' ▸ construct2_valid hr0 hc0 hsz
  have hzr : z.rows_ = m.rows_ := by rw [← hz']
  have hzc : z.cols_ = m.cols_ := by rw [← hz']
  obtain ⟨c, heq, hv, hcr, hcc, hent⟩ := add_ok hm hzv hzr.symm hzc.symm
  refine ⟨c, heq, hcr, hcc, ?_⟩
  intro i j hi hj
  rw [at?_eq_entry hv (by rw [hcr]; exact hi) (by rw [hcc]; exact hj),
    at?_eq_entry hm hi hj, hent i j hi hj]
  have hze : entry z i j = 0 := by
    rw [← hz']
    exact entry_replicate_matrix _ _ _ _ _
  rw [hze, add_zero]

theorem add_zero_identity_witness :
    Valid (⟨2, 2, [1, 2, 3, 4]⟩ : Matrix Int) ∧
    (construct2 2 2 = .ok (⟨2, 2, [0, 0, 0, 0]⟩ : Matrix Int)) ∧
    (∃ c, add (⟨2, 2, [1, 2, 3, 4]⟩ : Matrix Int) ⟨2, 2, [0, 0, 0, 0]⟩ =
      .ok (some c) ∧ c.rows_ = 2 ∧ c.cols_ = 2 ∧
      ∀ i j, i < 2 → j < 2 →
        c.at? i j = (⟨2, 2, [1, 2, 3, 4]⟩ : Matrix Int).at? i j) :=
  ⟨by decide, by decide,
    add_zero_identity ⟨2, 2, [1, 2, 3, 4]⟩ ⟨2, 2, [0, 0, 0, 0]⟩ (by decide)
      (by decide)⟩

/-- C1 (amended): `Multiply` fails with `DimensionMismatch` when the
inner dimensions differ; otherwise, whenever the result shape
`rows × other.cols` does not overflow `size_t` (`r * c < 2^64`), it
returns a new matrix of that shape whose entry at `(i, j)` is the sum
over `k` of `A[i][k] * B[k][j]` accumulated left-to-right starting from
zero with `k` as the innermost loop (`specEntry`); the entry type
carries no associativity or commutativity assumption, so the summation
order is exactly the standard triple-loop order.  The
`double`-precision rounding itself is abstracted by the arbitrary
carrier type.  (The original claim asserts the product result for every
pair of matching valid operands; the counterexample
`multiply_correct_cex` exhibits valid operands whose result buffer wraps
to length 0, making every store of the triple loop an out-of-buffer
write, so no matrix is returned there.) -/
theorem multiply_correct {α : Type} [Zero α] [Add α] [Mul α] (a b : Matrix α)
    (ha : Valid a) (hb : Valid b) (hsz : SizeT (a.rows_ * b.cols_)) :
    (a.cols_ ≠ b.rows_ → mul a b = .error .dimensionMismatch) ∧
    (a.cols_ = b.rows_ → ∃ c, mul a b = .ok (some c) ∧
      c.rows_ = a.rows_ ∧ c.cols_ = b.cols_ ∧
      ∀ i j, i < a.rows_ → j < b.cols_ →
        c.at? i j = .ok (some (specEntry a b i j))) := by
  constructor
  · intro h
    unfold mul
    rw [if_pos h]
  · intro h
    obtain ⟨c, heq, hv, hcr, hcc, hent⟩ := mul_ok ha hb h hsz
    refine ⟨c, heq, hcr, hcc, ?_⟩
    intro i j hi hj
    rw [at?_eq_entry hv (by rw [hcr]; exact hi) (by rw [hcc]; exact hj),
      hent i j hi hj]

theorem multiply_correct_witness :
    Valid (⟨2, 2, [1, 2, 3, 4]⟩ : Matrix Int) ∧
    Valid (⟨2, 2, [5, 6, 7, 8]⟩ : Matrix Int) ∧
    SizeT (2 * 2) ∧
    (((2 : Nat) ≠ 2 →
      mul (⟨2, 2, [1, 2, 3, 4]⟩ : Matrix Int) ⟨2, 2, [5, 6, 7, 8]⟩ =
        .error .dimensionMismatch) ∧
    ((2 : Nat) = 2 →
      ∃ c, mul (⟨2, 2, [1, 2, 3, 4]⟩ : Matrix Int) ⟨2, 2, [5, 6, 7, 8]⟩ =
        .ok (some c) ∧ c.rows_ = 2 ∧ c.cols_ = 2 ∧
        ∀ i j, i < 2 → j < 2 →
          c.at? i j = .ok (some (specEntry (⟨2, 2, [1, 2, 3, 4]⟩ : Matrix Int)
            ⟨2, 2, [5, 6, 7, 8]⟩ i j)))) :=
  ⟨by decide, by decide, by decide,
    multiply_correct ⟨2, 2, [1, 2, 3, 4]⟩ ⟨2, 2, [5, 6, 7, 8]⟩ (by decide)
      (by decide) (by decide)⟩

/-- C1 counterexample: the all-ones column of shape `2^40 × 1` and the
all-ones row of shape `1 × 2^40` are both valid (each buffer holds
exactly `2^40` entries) and their inner dimensions match, yet `Multiply`
does not return the claimed `2^40 × 2^40` product: that result's buffer
is allocated with `2^80 mod 2^64 = 0` elements, so already the first
store `result.at(0, 0) = sum` of the triple loop writes past the end of
the empty buffer — undefined behaviour (`.ok none`), not a new Matrix. -/
theorem multiply_correct_cex :
    Valid (⟨1099511627776, 1, List.replicate 1099511627776 (1 : Int)⟩ : Matrix Int) ∧
    Valid (⟨1, 1099511627776, List.replicate 1099511627776 (1 : Int)⟩ : Matrix Int) ∧
    (⟨1099511627776, 1, List.replicate 1099511627776 (1 : Int)⟩ : Matrix Int).cols_ =
      (⟨1, 1099511627776, List.replicate 1099511627776 (1 : Int)⟩ : Matrix Int).rows_ ∧
    mul (⟨1099511627776, 1, List.replicate 1099511627776 (1 : Int)⟩ : Matrix Int)
      ⟨1, 1099511627776, List.replicate 1099511627776 (1 : Int)⟩ = .ok none := by
  have hlen : (List.replicate 1099511627776 (1 : Int)).length = 1099511627776 :=
    List.length_replicate _ _
  have hVA : Valid (⟨1099511627776, 1,
      List.replicate 1099511627776 (1 : Int)⟩ : Matrix Int) := by
    refine ⟨by decide, by decide, ?_, by decide, by decide, ?_⟩
    · show (List.replicate 1099511627776 (1 : Int)).length = 1099511627776 * 1
      rw [hlen]
    · show (List.replicate 1099511627776 (1 : Int)).length < SIZE_T_MOD
      rw [hlen]
      decide
  have hVB : Valid (⟨1, 1099511627776,
      List.replicate 1099511627776 (1 : Int)⟩ : Matrix Int) := by
    refine ⟨by decide, by decide, ?_, by decide, by decide, ?_⟩
    · show (List.replicate 1099511627776 (1 : Int)).length = 1 * 1099511627776
      rw [hlen]
    · show (List.replicate 1099511627776 (1 : Int)).length < SIZE_T_MOD
      rw [hlen]
      decide
  have hz : construct2 (α := Int) 1099511627776 1099511627776 =
      .ok ⟨1099511627776, 1099511627776, []⟩ := by
    rw [construct2_ok (by decide) (by decide),
      show ((1099511627776 : Nat) * 1099511627776) % SIZE_T_MOD = 0 from by decide]
    rfl
  have hrange : List.range 1099511627776 =
      0 :: (List.range 1099511627775).map Nat.succ := by
    rw [show (1099511627776 : Nat) = 1099511627775 + 1 from rfl]
    exact List.range_succ_eq_map 1099511627775
  have hBc : (⟨1, 1099511627776,
      List.replicate 1099511627776 (1 : Int)⟩ : Matrix Int).cols_ = 1099511627776 := rfl
  have hAc : (⟨1099511627776, 1,
      List.replicate 1099511627776 (1 : Int)⟩ : Matrix Int).cols_ = 1 := rfl
  have hr1 : List.range 1 = [0] := rfl
  have hA00 : (⟨1099511627776, 1,
      List.replicate 1099511627776 (1 : Int)⟩ : Matrix Int).at? 0 0 = .ok (some 1) := by
    rw [at?_eq_entry hVA (by decide) (by decide)]
    rfl
  have hB00 : (⟨1, 1099511627776,
      List.replicate 1099511627776 (1 : Int)⟩ : Matrix Int).at? 0 0 = .ok (some 1) := by
    rw [at?_eq_entry hVB (by decide) (by decide)]
    rfl
  refine ⟨hVA, hVB, rfl, ?_⟩
  unfold mul
  dsimp only
  rw [if_neg (by decide)]
  rw [hz]
  show mulOuter (⟨1099511627776, 1, List.replicate 1099511627776 (1 : Int)⟩ : Matrix Int)
      ⟨1, 1099511627776, List.replicate 1099511627776 (1 : Int)⟩
      (List.range 1099511627776) ⟨1099511627776, 1099511627776, []⟩ = .ok none
  rw [hrange, mulOuter.eq_2, hBc, hrange, mulInner.eq_2, hAc, hr1, mulSum.eq_2,
    hA00, hB00]
  rfl

/-- C7: on a valid matrix, Transpose never fails, returns the
`(cols, rows)`-shaped matrix with `result[j][i] = this[i][j]`, and
transposing twice restores the matrix elementwise. -/
theorem transpose_correct {α : Type} [Zero α] (m : Matrix α) (hm : Valid m) :
    ∃ t, transpose m = .ok (some t) ∧ t.rows_ = m.cols_ ∧ t.cols_ = m.rows_ ∧
      (∀ i j, i < m.rows_ → j < m.cols_ → t.at? j i = m.at? i j) ∧
      ∃ u, transpose t = .ok (some u) ∧ u.rows_ = m.rows_ ∧ u.cols_ = m.cols_ ∧
        ∀ i j, i < m.rows_ → j < m.cols_ → u.at? i j = m.at? i j := by
  obtain ⟨t, ht, htv, htr, htc, htent⟩ := transpose_ok hm
  obtain ⟨u, hu, huv, hur, huc, huent⟩ := transpose_ok htv
  refine ⟨t, ht, htr, htc, ?_, u, hu, by rw [hur, htc], by rw [huc, htr], ?_⟩
  · intro i j hi hj
    rw [at?_eq_entry htv (by rw [htr]; exact hj) (by rw [htc]; exact hi),
      at?_eq_entry hm hi hj, htent j i hj hi]
  · intro i j hi hj
    rw [at?_eq_entry huv (by rw [hur, htc]; exact hi) (by rw [huc, htr]; exact hj),
      at?_eq_entry hm hi hj,
      huent i j (by rw [htc]; exact hi) (by rw [htr]; exact hj),
      htent j i hj hi]

theorem transpose_correct_witness :
    Valid (⟨2, 3, [1, 2, 3, 4, 5, 6]⟩ : Matrix Int) ∧
    (∃ t, transpose (⟨2, 3, [1, 2, 3, 4, 5, 6]⟩ : Matrix Int) = .ok (some t) ∧
      t.rows_ = 3 ∧ t.cols_ = 2 ∧
      (∀ i j, i < 2 → j < 3 →
        t.at? j i = (⟨2, 3, [1, 2, 3, 4, 5, 6]⟩ : Matrix Int).at? i j) ∧
      ∃ u, transpose t = .ok (some u) ∧ u.rows_ = 2 ∧ u.cols_ = 3 ∧
        ∀ i j, i < 2 → j < 3 →
          u.at? i j = (⟨2, 3, [1, 2, 3, 4, 5, 6]⟩ : Matrix Int).at? i j) :=
  ⟨by decide, transpose_correct ⟨2, 3, [1, 2, 3, 4, 5, 6]⟩ (by decide)⟩

/-- C8 (amended): every successfully constructed matrix (from `size_t`
dimensions) satisfies the machine invariant `WF`: positive dimensions
and `data.length = rows * cols mod 2^64`; the mathematical invariant
`data.length = rows * cols` of the original claim holds exactly when the
product does not overflow (counterexample `invariant_preserved_cex`
shows it can fail).  Add, Multiply (with non-overflowing result shape)
and Transpose of valid matrices yield valid matrices; the operations
take their operands as immutable values and return fresh records, so no
operation changes an existing instance's rows or cols. -/
theorem invariant_preserved {α : Type} [Zero α] [Add α] [Mul α] (a b : Matrix α)
    (ha : Valid a) (hb : Valid b) :
    (∀ rows cols : Nat, ∀ m : Matrix α, SizeT rows → SizeT cols →
      construct2 rows cols = .ok m → WF m) ∧
    (∀ rows cols : Nat, ∀ data : List α, ∀ m : Matrix α, SizeT rows → SizeT cols →
      construct3 rows cols data = .ok m → WF m) ∧
    (a.rows_ = b.rows_ → a.cols_ = b.cols_ →
      ∀ c, add a b = .ok (some c) →
        Valid c ∧ c.rows_ = a.rows_ ∧ c.cols_ = a.cols_) ∧
    (a.cols_ = b.rows_ → SizeT (a.rows_ * b.cols_) →
      ∀ c, mul a b = .ok (some c) →
        Valid c ∧ c.rows_ = a.rows_ ∧ c.cols_ = b.cols_) ∧
    (∀ t, transpose a = .ok (some t) →
      Valid t ∧ t.rows_ = a.cols_ ∧ t.cols_ = a.rows_) := by
  refine ⟨?_, ?_, ?_, ?_, ?_⟩
  · intro rows cols m hsr hsc h
    unfold construct2 at h
    by_cases hzero : rows = 0 ∨ cols = 0
    · rw [if_pos hzero] at h
      cases h
    · rw [if_neg hzero] at h
      injection h with h'
      subst h'
      refine ⟨by show 0 < rows; omega, by show 0 < cols; omega,
        by show (List.replicate ((rows * cols) % SIZE_T_MOD) (0 : α)).length
            = (rows * cols) % SIZE_T_MOD
           simp, hsr, hsc, ?_⟩
      show (List.replicate ((rows * cols) % SIZE_T_MOD) (0 : α)).length < SIZE_T_MOD
      simp only [List.length_replicate]
      exact Nat.mod_lt _ (by decide)
  · intro rows cols data m hsr hsc h
    unfold construct3 at h
    by_cases hzero : rows = 0 ∨ cols = 0
    · rw [if_pos hzero] at h
      cases h
    · rw [if_neg hzero] at h
      by_cases hlen : data.length ≠ (rows * cols) % SIZE_T_MOD
      · rw [if_pos hlen] at h
        cases h
      · rw [if_neg hlen] at h
        injection h with h'
        subst h'
        push_neg at hlen
        refine ⟨by show 0 < rows; omega, by show 0 < cols; omega, hlen, hsr, hsc, ?_⟩
        show data.length < SIZE_T_MOD
        rw [hlen]
        exact Nat.mod_lt _ (by decide)
  · intro h1 h2 c h
    obtain ⟨c₀, heq, hv, hcr, hcc, -⟩ := add_ok ha hb h1 h2
    rw [heq] at h
    injection h with h'
    injection h' with h''
    subst h''
    exact ⟨hv, hcr, hcc⟩
  · intro h1 hsz c h
    obtain ⟨c₀, heq, hv, hcr, hcc, -⟩ := mul_ok ha hb h1 hsz
    rw [heq] at h
    injection h with h'
    injection h' with h''
    subst h''
    exact ⟨hv, hcr, hcc⟩
  · intro t h
    obtain ⟨t₀, heq, hv, htr, htc, -⟩ := transpose_ok ha
    rw [heq] at h
    injection h with h'
    injection h' with h''
    subst h''
    exact ⟨hv, htr, htc⟩

theorem invariant_preserved_witness :
    Valid (⟨2, 2, [1, 2, 3, 4]⟩ : Matrix Int) ∧
    Valid (⟨2, 2, [5, 6, 7, 8]⟩ : Matrix Int) ∧
    ((∀ rows cols : Nat, ∀ m : Matrix Int, SizeT rows → SizeT cols →
      construct2 rows cols = .ok m → WF m) ∧
    (∀ rows cols : Nat, ∀ data : List Int, ∀ m : Matrix Int,
      SizeT rows → SizeT cols → construct3 rows cols data = .ok m → WF m) ∧
    ((2 : Nat) = 2 → (2 : Nat) = 2 →
      ∀ c, add (⟨2, 2, [1, 2, 3, 4]⟩ : Matrix Int) ⟨2, 2, [5, 6, 7, 8]⟩ =
        .ok (some c) → Valid c ∧ c.rows_ = 2 ∧ c.cols_ = 2) ∧
    ((2 : Nat) = 2 → SizeT (2 * 2) →
      ∀ c, mul (⟨2, 2, [1, 2, 3, 4]⟩ : Matrix Int) ⟨2, 2, [5, 6, 7, 8]⟩ =
        .ok (some c) → Valid c ∧ c.rows_ = 2 ∧ c.cols_ = 2) ∧
    (∀ t, transpose (⟨2, 2, [1, 2, 3, 4]⟩ : Matrix Int) = .ok (some t) →
      Valid t ∧ t.rows_ = 2 ∧ t.cols_ = 2)) :=
  ⟨by decide, by decide,
    invariant_preserved ⟨2, 2, [1, 2, 3, 4]⟩ ⟨2, 2, [5, 6, 7, 8]⟩ (by decide)
      (by decide)⟩

/-- C8 counterexample: `Construct(2^32, 2^32)` succeeds, but the
constructed instance violates the claimed invariant
`data.length == rows * cols`: its buffer is empty while the mathematical
product of its dimensions is `2^64`. -/
theorem invariant_preserved_cex :
    construct2 4294967296 4294967296 =
      .ok (⟨4294967296, 4294967296, []⟩ : Matrix Int) ∧
    (⟨4294967296, 4294967296, ([] : List Int)⟩ : Matrix Int).data_.length ≠
      (⟨4294967296, 4294967296, ([] : List Int)⟩ : Matrix Int).rows_ *
        (⟨4294967296, 4294967296, ([] : List Int)⟩ : Matrix Int).cols_ := by
  constructor <;> decide

/-- C3: each boundary function of engine.cpp catches every value-type
failure internally and returns the null sentinel instead of letting it
propagate: `matrix_create` returns the sentinel exactly when a dimension
is zero, `matrix_add` and `matrix_multiply` return the sentinel exactly
on a dimension mismatch, and `matrix_transpose` never returns the
sentinel; on valid operands every run is defined and yields a fresh
handle on success.  (Allocation failure is not modelled: allocation
always succeeds in this embedding.) -/
theorem boundary_sentinel {α : Type} [Zero α] [Add α] [Mul α] (a b m : Matrix α)
    (ha : Valid a) (hb : Valid b) (hm : Valid m)
    (hsz : SizeT (a.rows_ * b.cols_)) :
    (∀ rows cols : Nat, matrix_create (α := α) rows cols = none ↔
      rows = 0 ∨ cols = 0) ∧
    ((a.rows_ ≠ b.rows_ ∨ a.cols_ ≠ b.cols_) → matrix_add a b = some none) ∧
    (a.rows_ = b.rows_ → a.cols_ = b.cols_ →
      ∃ c, matrix_add a b = some (some c)) ∧
    (a.cols_ ≠ b.rows_ → matrix_multiply a b = some none) ∧
    (a.cols_ = b.rows_ → ∃ c, matrix_multiply a b = some (some c)) ∧
    (∃ t, matrix_transpose m = some (some t)) := by
  refine ⟨?_, ?_, ?_, ?_, ?_, ?_⟩
  · intro rows cols
    by_cases h : rows = 0 ∨ cols = 0
    · unfold matrix_create construct2
      rw [if_pos h]
      simp [h]
    · unfold matrix_create
      rw [construct2_ok (α := α) (by omega) (by omega)]
      simp [h]
  · intro h
    have herr : add a b = (.error .dimensionMismatch : Except Err (Option (Matrix α))) := by
      unfold add
      rw [if_pos h]
    unfold matrix_add
    rw [herr]
  · intro h1 h2
    obtain ⟨c, heq, -, -, -, -⟩ := add_ok ha hb h1 h2
    refine ⟨c, ?_⟩
    unfold matrix_add
    rw [heq]
  · intro h
    have herr : mul a b = (.error .dimensionMismatch : Except Err (Option (Matrix α))) := by
      unfold mul
      rw [if_pos h]
    unfold matrix_multiply
    rw [herr]
  · intro h
    obtain ⟨c, heq, -, -, -, -⟩ := mul_ok ha hb h hsz
    refine ⟨c, ?_⟩
    unfold matrix_multiply
    rw [heq]
  · obtain ⟨t, heq, -, -, -, -⟩ := transpose_ok hm
    refine ⟨t, ?_⟩
    unfold matrix_transpose
    rw [heq]

theorem boundary_sentinel_witness :
    Valid (⟨2, 2, [1, 2, 3, 4]⟩ : Matrix Int) ∧
    Valid (⟨2, 2, [5, 6, 7, 8]⟩ : Matrix Int) ∧
    SizeT (2 * 2) ∧
    ((∀ rows cols : Nat, matrix_create (α := Int) rows cols = none ↔
      rows = 0 ∨ cols = 0) ∧
    (((2 : Nat) ≠ 2 ∨ (2 : Nat) ≠ 2) →
      matrix_add (⟨2, 2, [1, 2, 3, 4]⟩ : Matrix Int) ⟨2, 2, [5, 6, 7, 8]⟩ =
        some none) ∧
    ((2 : Nat) = 2 → (2 : Nat) = 2 →
      ∃ c, matrix_add (⟨2, 2, [1, 2, 3, 4]⟩ : Matrix Int) ⟨2, 2, [5, 6, 7, 8]⟩ =
        some (some c)) ∧
    ((2 : Nat) ≠ 2 →
      matrix_multiply (⟨2, 2, [1, 2, 3, 4]⟩ : Matrix Int) ⟨2, 2, [5, 6, 7, 8]⟩ =
        some none) ∧
    ((2 : Nat) = 2 →
      ∃ c, matrix_multiply (⟨2, 2, [1, 2, 3, 4]⟩ : Matrix Int)
        ⟨2, 2, [5, 6, 7, 8]⟩ = some (some c)) ∧
    (∃ t, matrix_transpose (⟨2, 2, [1, 2, 3, 4]⟩ : Matrix Int) =
      some (some t))) :=
  ⟨by decide, by decide, by decide,
    boundary_sentinel ⟨2, 2, [1, 2, 3, 4]⟩ ⟨2, 2, [5, 6, 7, 8]⟩
      ⟨2, 2, [1, 2, 3, 4]⟩ (by decide) (by decide) (by decide) (by decide)⟩

end Matrix

end MathEngine
